import Mathlib

/-!
Verification development for the gprMax sub-gridding core
(`gprMax/solvers.py`, `gprMax/subgrids/updates.py`,
`gprMax/subgrids/subgrid_hsg.py`).

The Python code is shallowly embedded: methods that only sequence calls on
the updates objects are embedded as trace-producing functions over inductive
operation alphabets; fallible construction functions are embedded in
`Except`; Python `int(...)` truncation of float expressions is embedded as
exact rational arithmetic with truncation toward zero.
-/

namespace GprMax

/-- Operations invoked on the updates object from `Solver.solve`
(`solvers.py`), in the main time loop. -/
inductive Op where
  | store_outputs
  | store_snapshots (iteration : Nat)
  | update_magnetic
  | update_magnetic_pml
  | update_magnetic_sources
  | hsg_2
  | update_electric_a
  | update_electric_pml
  | update_electric_sources
  | hsg_1
  | update_electric_b
  | calculate_memsolve (iteration : Nat)
  deriving DecidableEq, Repr

/-- Operations invoked from `SubgridUpdater.hsg_1` / `SubgridUpdater.hsg_2`
(`subgrids/updates.py`): updates-object methods (`self.*`), precursor
methods (`precursors.*`) and sub-grid boundary-exchange methods
(`sub_grid.*`).  Interpolation steps carry the integer argument computed at
the call site. -/
inductive SgOp where
  | precursors_update_electric
  | precursors_update_magnetic
  | store_outputs
  | update_electric_a
  | update_electric_pml
  | interpolate_magnetic_in_time (step : Int)
  | update_electric_is
  | update_electric_sources
  | update_electric_b
  | update_magnetic
  | update_magnetic_pml
  | interpolate_electric_in_time (step : Int)
  | update_magnetic_is
  | update_magnetic_sources
  | calc_exact_magnetic_in_time
  | calc_exact_electric_in_time
  | update_electric_os
  | update_magnetic_os
  deriving DecidableEq, Repr

/-- Position of the first occurrence of `a` in a list (length if absent). -/
def posOf {α : Type} [DecidableEq α] (a : α) : List α → Nat
  | [] => 0
  | b :: l => if b = a then 0 else posOf a l + 1

/-- Number of occurrences of `a` in a list. -/
def countOp {α : Type} [DecidableEq α] (a : α) : List α → Nat
  | [] => 0
  | b :: l => (if b = a then 1 else 0) + countOp a l

/-- Truncation toward zero, the semantics of Python `int(...)` applied to a
real-valued expression (the float expressions in the sources are exact at
the magnitudes involved, so the rational value is the float value). -/
def pyInt (q : ℚ) : ℤ := if 0 ≤ q then ⌊q⌋ else ⌈q⌉

/-- The loop bound `upper_m = int(sub_grid.ratio / 2 - 0.5)` computed in
`SubgridUpdater.hsg_1` and `SubgridUpdater.hsg_2`. -/
def upper_m (ratio : Nat) : ℤ := pyInt ((ratio : ℚ) / 2 - 1 / 2)

/-- The interpolation step index `int(m + sub_grid.ratio / 2 - 0.5)` passed
to the first interpolation call of each loop body. -/
def stepIndex (ratio m : Nat) : ℤ := pyInt ((m : ℚ) + (ratio : ℚ) / 2 - 1 / 2)

/-- Trace of a Python loop `for m in range(1, n + 1): body(m)`:
the body traces for `m = 1, …, n`, concatenated in order. -/
def loopTrace (body : Nat → List SgOp) : Nat → List SgOp
  | 0 => []
  | n + 1 => loopTrace body n ++ body (n + 1)

/-- One iteration of the `for m in range(1, upper_m + 1)` loop of
`SubgridUpdater.hsg_1` (`subgrids/updates.py`, lines 101-117). -/
def hsg1_body (ratio m : Nat) : List SgOp :=
  [ .store_outputs,
    .update_electric_a,
    .update_electric_pml,
    .interpolate_magnetic_in_time (stepIndex ratio m),
    .update_electric_is,
    .update_electric_sources,
    .update_electric_b,
    .update_magnetic,
    .update_magnetic_pml,
    .interpolate_electric_in_time (m : Int),
    .update_magnetic_is,
    .update_magnetic_sources ]

/-- The operations of `SubgridUpdater.hsg_1` after its loop
(`subgrids/updates.py`, lines 119-126). -/
def hsg1_tail : List SgOp :=
  [ .store_outputs,
    .update_electric_a,
    .update_electric_pml,
    .calc_exact_magnetic_in_time,
    .update_electric_is,
    .update_electric_sources,
    .update_electric_b,
    .update_electric_os ]

/-- Full operation trace of one call to `SubgridUpdater.hsg_1`. -/
def hsg_1 (ratio : Nat) : List SgOp :=
  [SgOp.precursors_update_electric]
    ++ loopTrace (hsg1_body ratio) (upper_m ratio).toNat
    ++ hsg1_tail

/-- One iteration of the `for m in range(1, upper_m + 1)` loop of
`SubgridUpdater.hsg_2` (`subgrids/updates.py`, lines 141-157). -/
def hsg2_body (ratio m : Nat) : List SgOp :=
  [ .update_magnetic,
    .update_magnetic_pml,
    .interpolate_electric_in_time (stepIndex ratio m),
    .update_magnetic_is,
    .update_magnetic_sources,
    .store_outputs,
    .update_electric_a,
    .update_electric_pml,
    .interpolate_magnetic_in_time (m : Int),
    .update_electric_is,
    .update_electric_sources,
    .update_electric_b ]

/-- The operations of `SubgridUpdater.hsg_2` after its loop
(`subgrids/updates.py`, lines 159-164). -/
def hsg2_tail : List SgOp :=
  [ .update_magnetic,
    .update_magnetic_pml,
    .calc_exact_electric_in_time,
    .update_magnetic_is,
    .update_magnetic_sources,
    .update_magnetic_os ]

/-- Full operation trace of one call to `SubgridUpdater.hsg_2`. -/
def hsg_2 (ratio : Nat) : List SgOp :=
  [SgOp.precursors_update_magnetic]
    ++ loopTrace (hsg2_body ratio) (upper_m ratio).toNat
    ++ hsg2_tail

/-- Operations performed on the updates object in one iteration of the time
loop of `Solver.solve` (`solvers.py`, lines 102-116).  The `hsg_2` / `hsg_1`
calls are guarded by `self.hsg`; `calculate_memsolve` is invoked only under
the CUDA configuration flag. -/
def solveIteration (hsg cuda : Bool) (iteration : Nat) : List Op :=
  [ Op.store_outputs,
    Op.store_snapshots iteration,
    Op.update_magnetic,
    Op.update_magnetic_pml,
    Op.update_magnetic_sources ]
  ++ (if hsg then [Op.hsg_2] else [])
  ++ [ Op.update_electric_a,
       Op.update_electric_pml,
       Op.update_electric_sources ]
  ++ (if hsg then [Op.hsg_1] else [])
  ++ [Op.update_electric_b]
  ++ (if cuda then [Op.calculate_memsolve iteration] else [])

/-- Python exception classes raised (or reachable) in `solvers.py` and
`subgrids/updates.py`. -/
inductive PyError where
  | ValueError
  | ConfigurationError
  | UnboundLocalError
  deriving DecidableEq, Repr

/-- Value of the Python local `memsolve` after running the body of the time
loop of `Solver.solve` for each element of `iterator`: `none` models a local
that was never assigned, `some v` a local last assigned `v` (where `v` is
`some (memf iteration)` under CUDA and Python `None` otherwise). `memf`
abstracts the numeric result of `self.updates.calculate_memsolve`, which is
external to the sources. -/
def memAfter (cuda : Bool) (memf : Nat → Nat) :
    List Nat → Option (Option Nat) → Option (Option Nat)
  | [], acc => acc
  | i :: rest, _ =>
      memAfter cuda memf rest (some (if cuda then some (memf i) else none))

/-- Embedding of `Solver.solve` (`solvers.py`, lines 89-122): runs the time
loop over `iterator`, producing the operation trace and the returned
`memsolve` value.  When `iterator` is empty the local `memsolve` is never
assigned and the `return` statement raises `UnboundLocalError`. -/
def Solver.solve (hsg cuda : Bool) (memf : Nat → Nat) (iterator : List Nat) :
    Except PyError (List Op × Option Nat) :=
  let trace := (iterator.map (solveIteration hsg cuda)).foldr (· ++ ·) []
  match memAfter cuda memf iterator none with
  | none => .error .UnboundLocalError
  | some m => .ok (trace, m)

/-! ## Field arrays, grids and the boundary-exchange kernels

Field arrays are modelled as lists of rationals.  The Cython kernels
`cython_update_is`, `cython_update_electric_os` and
`cython_update_magnetic_os` (module `gprMax.cython.fields_updates_hsg`) are
imported by `subgrid_hsg.py` but their sources are not part of the provided
files; each is therefore treated as an arbitrary function of its argument
tuple returning the new contents of its destination array.  Modelled from
the spec: "IS injection never mutates the main grid; OS injection never
mutates the fine grid" — the kernels write only the array passed as their
`field` argument, which the theorems reflect by quantifying over the kernel
function. -/

/-- A field array (Ex, Ey, …) as mutated in place by the kernels. -/
abbrev Arr := List ℚ

/-- Precursor-node buffers held by a `PrecursorNodes` object and read by the
IS injection methods of `SubGridHSG`. -/
structure Precursors where
  ex_bottom : Arr
  ex_top : Arr
  ey_bottom : Arr
  ey_top : Arr
  ey_left : Arr
  ey_right : Arr
  ez_left : Arr
  ez_right : Arr
  ex_front : Arr
  ex_back : Arr
  ez_front : Arr
  ez_back : Arr
  hy_bottom : Arr
  hy_top : Arr
  hx_bottom : Arr
  hx_top : Arr
  hz_left : Arr
  hz_right : Arr
  hy_left : Arr
  hy_right : Arr
  hz_front : Arr
  hz_back : Arr
  hx_front : Arr
  hx_back : Arr

/-- The sub-grid object (`SubGridHSG`): working-region dimensions, geometry,
material data and the six fine-grid field arrays. -/
structure SubGrid where
  nwx : Nat
  nwy : Nat
  nwz : Nat
  n_boundary_cells : Nat
  ratio : Nat
  is_os_sep : Int
  i0 : Int
  i1 : Int
  j0 : Int
  j1 : Int
  k0 : Int
  k1 : Int
  updatecoeffsE : Arr
  updatecoeffsH : Arr
  ID : Arr
  lookupEx : Nat
  lookupEy : Nat
  lookupEz : Nat
  lookupHx : Nat
  lookupHy : Nat
  lookupHz : Nat
  Ex : Arr
  Ey : Arr
  Ez : Arr
  Hx : Arr
  Hy : Arr
  Hz : Arr

/-- The main (coarse) grid object as touched by the OS injections. -/
structure MainGrid where
  updatecoeffsE : Arr
  updatecoeffsH : Arr
  ID : Arr
  lookupEx : Nat
  lookupEy : Nat
  lookupEz : Nat
  lookupHx : Nat
  lookupHy : Nat
  lookupHz : Nat
  Ex : Arr
  Ey : Arr
  Ez : Arr
  Hx : Arr
  Hy : Arr
  Hz : Arr

/-- Argument tuple of one `cython_update_is` call
(`subgrid_hsg.py`): grid dimensions, material data, offset, the
per-call dimensions and face index, the destination field array, the two
precursor arrays, the material lookup id, the sign pair and the coefficient
index.  The trailing OpenMP thread-count argument carries no data and is
omitted. -/
structure IsArgs where
  nwl : Nat
  nwm : Nat
  nwn : Nat
  coeffs : Arr
  id : Arr
  nbc : Nat
  offset : Int
  d1 : Nat
  d2 : Nat
  d3 : Nat
  face : Nat
  field : Arr
  inc_lo : Arr
  inc_hi : Arr
  lookup : Nat
  sign1 : Int
  sign2 : Int
  co : Nat

/-- The IS kernel: computes the new contents of the destination `field`
array (modelled from the spec; the kernel body is not in the sources). -/
def IsKernel : Type := IsArgs → Arr

/-- `SubGridHSG.update_magnetic_is(self, precursors)`
(`subgrid_hsg.py`, lines 44-65): six sequential `cython_update_is` calls
writing `self.Hy, self.Hx, self.Hz, self.Hy, self.Hz, self.Hx`; only `self`
(the sub-grid) and `precursors` are passed. -/
def SubGridHSG.update_magnetic_is (k : IsKernel) (g : SubGrid)
    (p : Precursors) : SubGrid :=
  -- bottom and top
  let g := { g with Hy := k ⟨g.nwx, g.nwy, g.nwz, g.updatecoeffsH, g.ID,
    g.n_boundary_cells, -1, g.nwx, g.nwy + 1, g.nwz, 1, g.Hy,
    p.ex_bottom, p.ex_top, g.lookupHy, 1, -1, 3⟩ }
  let g := { g with Hx := k ⟨g.nwx, g.nwy, g.nwz, g.updatecoeffsH, g.ID,
    g.n_boundary_cells, -1, g.nwx + 1, g.nwy, g.nwz, 1, g.Hx,
    p.ey_bottom, p.ey_top, g.lookupHx, -1, 1, 3⟩ }
  -- left and right
  let g := { g with Hz := k ⟨g.nwx, g.nwy, g.nwz, g.updatecoeffsH, g.ID,
    g.n_boundary_cells, -1, g.nwy, g.nwz + 1, g.nwx, 2, g.Hz,
    p.ey_left, p.ey_right, g.lookupHz, 1, -1, 1⟩ }
  let g := { g with Hy := k ⟨g.nwx, g.nwy, g.nwz, g.updatecoeffsH, g.ID,
    g.n_boundary_cells, -1, g.nwy + 1, g.nwz, g.nwx, 2, g.Hy,
    p.ez_left, p.ez_right, g.lookupHy, -1, 1, 1⟩ }
  -- front and back
  let g := { g with Hz := k ⟨g.nwx, g.nwy, g.nwz, g.updatecoeffsH, g.ID,
    g.n_boundary_cells, -1, g.nwx, g.nwz + 1, g.nwy, 3, g.Hz,
    p.ex_front, p.ex_back, g.lookupHz, -1, 1, 2⟩ }
  let g := { g with Hx := k ⟨g.nwx, g.nwy, g.nwz, g.updatecoeffsH, g.ID,
    g.n_boundary_cells, -1, g.nwx + 1, g.nwz, g.nwy, 3, g.Hx,
    p.ez_front, p.ez_back, g.lookupHx, 1, -1, 2⟩ }
  g

/-- `SubGridHSG.update_electric_is(self, precursors)`
(`subgrid_hsg.py`, lines 67-89): six sequential `cython_update_is` calls
writing `self.Ex, self.Ey, self.Ey, self.Ez, self.Ex, self.Ez`. -/
def SubGridHSG.update_electric_is (k : IsKernel) (g : SubGrid)
    (p : Precursors) : SubGrid :=
  -- bottom and top
  let g := { g with Ex := k ⟨g.nwx, g.nwy, g.nwz, g.updatecoeffsE, g.ID,
    g.n_boundary_cells, 0, g.nwx, g.nwy + 1, g.nwz, 1, g.Ex,
    p.hy_bottom, p.hy_top, g.lookupEx, 1, -1, 3⟩ }
  let g := { g with Ey := k ⟨g.nwx, g.nwy, g.nwz, g.updatecoeffsE, g.ID,
    g.n_boundary_cells, 0, g.nwx + 1, g.nwy, g.nwz, 1, g.Ey,
    p.hx_bottom, p.hx_top, g.lookupEy, -1, 1, 3⟩ }
  -- left and right
  let g := { g with Ey := k ⟨g.nwx, g.nwy, g.nwz, g.updatecoeffsE, g.ID,
    g.n_boundary_cells, 0, g.nwy, g.nwz + 1, g.nwx, 2, g.Ey,
    p.hz_left, p.hz_right, g.lookupEy, 1, -1, 1⟩ }
  let g := { g with Ez := k ⟨g.nwx, g.nwy, g.nwz, g.updatecoeffsE, g.ID,
    g.n_boundary_cells, 0, g.nwy + 1, g.nwz, g.nwx, 2, g.Ez,
    p.hy_left, p.hy_right, g.lookupEz, -1, 1, 1⟩ }
  -- front and back
  let g := { g with Ex := k ⟨g.nwx, g.nwy, g.nwz, g.updatecoeffsE, g.ID,
    g.n_boundary_cells, 0, g.nwx, g.nwz + 1, g.nwy, 3, g.Ex,
    p.hz_front, p.hz_back, g.lookupEx, -1, 1, 2⟩ }
  let g := { g with Ez := k ⟨g.nwx, g.nwy, g.nwz, g.updatecoeffsE, g.ID,
    g.n_boundary_cells, 0, g.nwx + 1, g.nwz, g.nwy, 3, g.Ez,
    p.hx_front, p.hx_back, g.lookupEz, 1, -1, 2⟩ }
  g

/-- Argument tuple of one `cython_update_electric_os` /
`cython_update_magnetic_os` call (`subgrid_hsg.py`): main-grid material
data, face normal, the six index bounds, the sub-grid working dimension,
the material lookup id, the destination main-grid field array, the sub-grid
source field array, coefficient index, sign pair, component selector,
ratio, IS/OS separation and boundary-cell count (thread count omitted). -/
structure OsArgs where
  coeffs : Arr
  id : Arr
  normal : Nat
  l_l : Int
  l_u : Int
  m_l : Int
  m_u : Int
  n_l : Int
  n_u : Int
  nwn : Nat
  lookup : Nat
  field : Arr
  inc_field : Arr
  co : Nat
  sign_n : Int
  sign_f : Int
  mid : Nat
  ratio : Nat
  is_os_sep : Int
  nbc : Nat

/-- The OS kernel: computes the new contents of the destination main-grid
`field` array (modelled from the spec; the kernel body is not in the
sources). -/
def OsKernel : Type := OsArgs → Arr

/-- `SubGridHSG.update_electric_os(self, main_grid)`
(`subgrid_hsg.py`, lines 91-120): six sequential
`cython_update_electric_os` calls writing `main_grid.Ex, main_grid.Ez,
main_grid.Ey, main_grid.Ez, main_grid.Ex, main_grid.Ey`, reading the
sub-grid magnetic fields. -/
def SubGridHSG.update_electric_os (k : OsKernel) (g : SubGrid)
    (mg : MainGrid) : MainGrid :=
  let i_l := g.i0 - g.is_os_sep
  let i_u := g.i1 + g.is_os_sep
  let j_l := g.j0 - g.is_os_sep
  let j_u := g.j1 + g.is_os_sep
  let k_l := g.k0 - g.is_os_sep
  let k_u := g.k1 + g.is_os_sep
  -- front and back
  let mg := { mg with Ex := k ⟨mg.updatecoeffsE, mg.ID, 3, i_l, i_u,
    k_l, k_u + 1, j_l, j_u, g.nwy, mg.lookupEx, mg.Ex, g.Hz, 2, 1, -1, 1,
    g.ratio, g.is_os_sep, g.n_boundary_cells⟩ }
  let mg := { mg with Ez := k ⟨mg.updatecoeffsE, mg.ID, 3, i_l, i_u + 1,
    k_l, k_u, j_l, j_u, g.nwy, mg.lookupEz, mg.Ez, g.Hx, 2, -1, 1, 0,
    g.ratio, g.is_os_sep, g.n_boundary_cells⟩ }
  -- left and right
  let mg := { mg with Ey := k ⟨mg.updatecoeffsE, mg.ID, 2, j_l, j_u,
    k_l, k_u + 1, i_l, i_u, g.nwx, mg.lookupEy, mg.Ey, g.Hz, 1, -1, 1, 1,
    g.ratio, g.is_os_sep, g.n_boundary_cells⟩ }
  let mg := { mg with Ez := k ⟨mg.updatecoeffsE, mg.ID, 2, j_l, j_u + 1,
    k_l, k_u, i_l, i_u, g.nwx, mg.lookupEz, mg.Ez, g.Hy, 1, 1, -1, 0,
    g.ratio, g.is_os_sep, g.n_boundary_cells⟩ }
  -- bottom and top
  let mg := { mg with Ex := k ⟨mg.updatecoeffsE, mg.ID, 1, i_l, i_u,
    j_l, j_u + 1, k_l, k_u, g.nwz, mg.lookupEx, mg.Ex, g.Hy, 3, -1, 1, 1,
    g.ratio, g.is_os_sep, g.n_boundary_cells⟩ }
  let mg := { mg with Ey := k ⟨mg.updatecoeffsE, mg.ID, 1, i_l, i_u + 1,
    j_l, j_u, k_l, k_u, g.nwz, mg.lookupEy, mg.Ey, g.Hx, 3, 1, -1, 0,
    g.ratio, g.is_os_sep, g.n_boundary_cells⟩ }
  mg

/-- `SubGridHSG.update_magnetic_os(self, main_grid)`
(`subgrid_hsg.py`, lines 122-149): six sequential
`cython_update_magnetic_os` calls writing `main_grid.Hz, main_grid.Hx,
main_grid.Hz, main_grid.Hy, main_grid.Hy, main_grid.Hx`, reading the
sub-grid electric fields. -/
def SubGridHSG.update_magnetic_os (k : OsKernel) (g : SubGrid)
    (mg : MainGrid) : MainGrid :=
  let i_l := g.i0 - g.is_os_sep
  let i_u := g.i1 + g.is_os_sep
  let j_l := g.j0 - g.is_os_sep
  let j_u := g.j1 + g.is_os_sep
  let k_l := g.k0 - g.is_os_sep
  let k_u := g.k1 + g.is_os_sep
  -- front and back
  let mg := { mg with Hz := k ⟨mg.updatecoeffsH, mg.ID, 3, i_l, i_u,
    k_l, k_u + 1, j_l - 1, j_u, g.nwy, mg.lookupHz, mg.Hz, g.Ex, 2, 1, -1, 1,
    g.ratio, g.is_os_sep, g.n_boundary_cells⟩ }
  let mg := { mg with Hx := k ⟨mg.updatecoeffsH, mg.ID, 3, i_l, i_u + 1,
    k_l, k_u, j_l - 1, j_u, g.nwy, mg.lookupHx, mg.Hx, g.Ez, 2, -1, 1, 0,
    g.ratio, g.is_os_sep, g.n_boundary_cells⟩ }
  -- left and right
  let mg := { mg with Hz := k ⟨mg.updatecoeffsH, mg.ID, 2, j_l, j_u,
    k_l, k_u + 1, i_l - 1, i_u, g.nwx, mg.lookupHz, mg.Hz, g.Ey, 1, -1, 1, 1,
    g.ratio, g.is_os_sep, g.n_boundary_cells⟩ }
  let mg := { mg with Hy := k ⟨mg.updatecoeffsH, mg.ID, 2, j_l, j_u + 1,
    k_l, k_u, i_l - 1, i_u, g.nwx, mg.lookupHy, mg.Hy, g.Ez, 1, 1, -1, 0,
    g.ratio, g.is_os_sep, g.n_boundary_cells⟩ }
  -- bottom and top
  let mg := { mg with Hy := k ⟨mg.updatecoeffsH, mg.ID, 1, i_l, i_u,
    j_l, j_u + 1, k_l - 1, k_u, g.nwz, mg.lookupHy, mg.Hy, g.Ex, 3, -1, 1, 1,
    g.ratio, g.is_os_sep, g.n_boundary_cells⟩ }
  let mg := { mg with Hx := k ⟨mg.updatecoeffsH, mg.ID, 1, i_l, i_u + 1,
    j_l, j_u, k_l - 1, k_u, g.nwz, mg.lookupHx, mg.Hx, g.Ey, 3, 1, -1, 0,
    g.ratio, g.is_os_sep, g.n_boundary_cells⟩ }
  mg

/-- Coupled simulation state as visible inside `SubgridUpdater.hsg_1` /
`hsg_2` (`subgrids/updates.py`): the main grid `G` and one sub-grid. -/
structure SimState where
  G : MainGrid
  sub : SubGrid

/-- The call `sub_grid.update_electric_is(precursors)` as performed inside
`SubgridUpdater.hsg_1`/`hsg_2`: only the sub-grid fields are assigned. -/
def callUpdateElectricIs (k : IsKernel) (p : Precursors) (st : SimState) :
    SimState :=
  { st with sub := SubGridHSG.update_electric_is k st.sub p }

/-- The call `sub_grid.update_magnetic_is(precursors)`. -/
def callUpdateMagneticIs (k : IsKernel) (p : Precursors) (st : SimState) :
    SimState :=
  { st with sub := SubGridHSG.update_magnetic_is k st.sub p }

/-- The call `sub_grid.update_electric_os(G)` at the end of
`SubgridUpdater.hsg_1`: only main-grid fields are assigned. -/
def callUpdateElectricOs (k : OsKernel) (st : SimState) : SimState :=
  { st with G := SubGridHSG.update_electric_os k st.sub st.G }

/-- The call `sub_grid.update_magnetic_os(G)` at the end of
`SubgridUpdater.hsg_2`. -/
def callUpdateMagneticOs (k : OsKernel) (st : SimState) : SimState :=
  { st with G := SubGridHSG.update_magnetic_os k st.sub st.G }

/-! ## CPU versus CUDA IS-injection call descriptors

For comparing `SubGridHSG.update_electric_is` with
`CUDASubGridHSG.update_electric_is`, each of the six per-face-pair calls is
described by the data that select its component update: the destination
field array, the precursor buffer pair, the material lookup id, the sign
pair and the coefficient index. -/

/-- Electric field component identifier. -/
inductive EField where
  | Ex
  | Ey
  | Ez
  deriving DecidableEq, Repr

/-- A magnetic precursor buffer pair consumed by one electric IS call. -/
inductive HPrecPair where
  | hy_bottom_top
  | hx_bottom_top
  | hz_left_right
  | hy_left_right
  | hz_front_back
  | hx_front_back
  deriving DecidableEq, Repr

/-- Descriptor of one electric IS injection call. -/
structure ECallDescr where
  dest : EField
  prec : HPrecPair
  lookup : EField
  sign1 : Int
  sign2 : Int
  co : Nat
  deriving DecidableEq, Repr

/-- The six `cython_update_is` calls of `SubGridHSG.update_electric_is`
(`subgrid_hsg.py`, lines 80-89), in source order. -/
def cpu_update_electric_is_calls : List ECallDescr :=
  [ ⟨.Ex, .hy_bottom_top, .Ex, 1, -1, 3⟩,
    ⟨.Ey, .hx_bottom_top, .Ey, -1, 1, 3⟩,
    ⟨.Ey, .hz_left_right, .Ey, 1, -1, 1⟩,
    ⟨.Ez, .hy_left_right, .Ez, -1, 1, 1⟩,
    ⟨.Ex, .hz_front_back, .Ex, -1, 1, 2⟩,
    ⟨.Ez, .hx_front_back, .Ez, 1, -1, 2⟩ ]

/-- The six `hsg_update_is_gpu` kernel launches of
`CUDASubGridHSG.update_electric_is` (`subgrid_hsg.py`, lines 364-473), in
source order: destination is the `*_gpu` array passed as the field
argument; the last launch passes `self.Ex_gpu.gpudata` while using the
`Ez` lookup and the `hx_front`/`hx_back` precursors. -/
def cuda_update_electric_is_calls : List ECallDescr :=
  [ ⟨.Ex, .hy_bottom_top, .Ex, 1, -1, 3⟩,
    ⟨.Ey, .hx_bottom_top, .Ey, -1, 1, 3⟩,
    ⟨.Ey, .hz_left_right, .Ey, 1, -1, 1⟩,
    ⟨.Ez, .hy_left_right, .Ez, -1, 1, 1⟩,
    ⟨.Ex, .hz_front_back, .Ex, -1, 1, 2⟩,
    ⟨.Ex, .hx_front_back, .Ez, 1, -1, 2⟩ ]

/-! ## Setup-time construction (`create_updates`, `create_G`,
`create_solver`) -/

/-- A sub-grid object as dispatched on by `create_updates`
(`subgrids/updates.py`, lines 32-40): either an instance of `SubGridHSG`
(with its `filter` flag) or an instance of some other class. -/
inductive SgObj where
  | subGridHSG (filter : Bool)
  | otherGrid (tag : Nat)
  deriving DecidableEq, Repr

/-- The precursor object chosen for a sub-grid by `create_updates`. -/
inductive PrecursorsObj where
  | filtered
  | unfiltered
  deriving DecidableEq, Repr

/-- A `SubgridUpdater(sg, precursors, G)` instance. -/
structure UpdaterObj where
  sg : SgObj
  precursors : PrecursorsObj
  deriving DecidableEq, Repr

/-- `create_updates(G)` (`subgrids/updates.py`, lines 28-46): for each
sub-grid of `G`, choose the precursor variant by the `type(sg)` dispatch and
build a `SubgridUpdater`; on an unrecognized sub-grid type, log and
`raise ValueError`. -/
def create_updates : List SgObj → Except PyError (List UpdaterObj)
  | [] => .ok []
  | .subGridHSG true :: rest =>
      (create_updates rest).map (⟨.subGridHSG true, .filtered⟩ :: ·)
  | .subGridHSG false :: rest =>
      (create_updates rest).map (⟨.subGridHSG false, .unfiltered⟩ :: ·)
  | .otherGrid _ :: _ => .error .ValueError

/-- Whether `type(sg) == SubGridHSG` holds for a sub-grid object. -/
def SgObj.isHSG : SgObj → Bool
  | .subGridHSG _ => true
  | .otherGrid _ => false

/-- The `config.sim_config.general` flags consulted by `create_G` and
`create_solver` (`solvers.py`). -/
structure SimGeneral where
  cpu : Bool
  cuda : Bool
  subgrid : Bool
  deriving DecidableEq, Repr

/-- Grid object created by `create_G`. -/
inductive GridObj where
  | fdtdGrid
  | cudaGrid
  deriving DecidableEq, Repr

/-- `create_G()` (`solvers.py`, lines 26-39): `G` is assigned only under
the `cpu` or `cuda` flag; with neither flag set, `return G` raises
`UnboundLocalError`. -/
def create_G (cfg : SimGeneral) : Except PyError GridObj :=
  if cfg.cpu then .ok .fdtdGrid
  else if cfg.cuda then .ok .cudaGrid
  else .error .UnboundLocalError

/-- The updates object held by a `Solver`; for the CPU paths the flag
records that the dispersive update functions were configured. -/
inductive UpdatesObj where
  | subgridUpdates (updaters : List UpdaterObj) (dispersiveConfigured : Bool)
  | cpuUpdates (dispersiveConfigured : Bool)
  | cudaUpdates
  deriving DecidableEq, Repr

/-- A `Solver(updates, hsg)` instance. -/
structure SolverObj where
  updates : UpdatesObj
  hsg : Bool
  deriving DecidableEq, Repr

/-- `create_solver(G)` (`solvers.py`, lines 42-73): the `subgrid` branch
builds sub-grid updates (with `hsg = True`); otherwise the `cpu` or `cuda`
branch builds the plain updates; with no branch taken, `return solver`
raises `UnboundLocalError`. -/
def create_solver (cfg : SimGeneral) (subgrids : List SgObj) :
    Except PyError SolverObj :=
  if cfg.subgrid then
    match create_updates subgrids with
    | .error e => .error e
    | .ok us =>
        if cfg.cuda then .ok ⟨.subgridUpdates us false, true⟩
        else .ok ⟨.subgridUpdates us true, true⟩
  else if cfg.cpu then .ok ⟨.cpuUpdates true, false⟩
  else if cfg.cuda then .ok ⟨.cudaUpdates, false⟩
  else .error .UnboundLocalError

/-! ## Precursor time interpolation (unfiltered variant) -/

/-- One precursor buffer pair: the coarse sample before and after the
current coarse step, per node. -/
structure PrecursorBuffer where
  before : Arr
  after : Arr

/-- Modelled from the spec: `precursor_nodes.py` (class `PrecursorNodes`,
imported by `subgrids/updates.py` line 22) is not among the provided
sources.  Following spec §4.1, the unfiltered variant's interpolation
"produce[s] a linearly … interpolated field value between the 'before' and
'after' coarse samples, proportional to `step / ratio`": each node takes
the convex combination of its before/after samples with weight
`step / ratio` on the after sample. -/
def linearInterpInTime (ratio step : Nat) (pb : PrecursorBuffer) : Arr :=
  (pb.before.zip pb.after).map
    (fun ab => (1 - (step : ℚ) / (ratio : ℚ)) * ab.1
      + ((step : ℚ) / (ratio : ℚ)) * ab.2)

/-- `PrecursorNodes.interpolate_electric_in_time(step)` for the unfiltered
variant (modelled from the spec, see `linearInterpInTime`). -/
def interpolate_electric_in_time (ratio step : Nat) (pb : PrecursorBuffer) :
    Arr :=
  linearInterpInTime ratio step pb

/-- `PrecursorNodes.interpolate_magnetic_in_time(step)` for the unfiltered
variant (modelled from the spec, see `linearInterpInTime`). -/
def interpolate_magnetic_in_time (ratio step : Nat) (pb : PrecursorBuffer) :
    Arr :=
  linearInterpInTime ratio step pb

/-! ## Helper lemmas -/

theorem countOp_append {α : Type} [DecidableEq α] (a : α) (l₁ l₂ : List α) :
    countOp a (l₁ ++ l₂) = countOp a l₁ + countOp a l₂ := by
  induction l₁ with
  | nil => simp [countOp]
  | cons b l ih => simp [countOp, ih]; ring

theorem countOp_loopTrace (a : SgOp) (body : Nat → List SgOp)
    (h : ∀ m, countOp a (body m) = 1) :
    ∀ n, countOp a (loopTrace body n) = n := by
  intro n
  induction n with
  | zero => simp [loopTrace, countOp]
  | succ n ih => simp [loopTrace, countOp_append, ih, h (n + 1)]

theorem memAfter_some (cuda : Bool) (memf : Nat → Nat) :
    ∀ (l : List Nat) (v : Option Nat),
      ∃ m, memAfter cuda memf l (some v) = some m := by
  intro l
  induction l with
  | nil => exact fun v => ⟨v, rfl⟩
  | cons i rest ih => exact fun v => ih _

/-! ## Claim theorems -/

/-- C1: with sub-gridding enabled (`hsg = True`) every iteration of
`Solver.solve` invokes the updates-object operations in exactly the order
`store_outputs, store_snapshots, update_magnetic, update_magnetic_pml,
update_magnetic_sources, hsg_2, update_electric_a, update_electric_pml,
update_electric_sources, hsg_1, update_electric_b` (followed only by the
CUDA-guarded `calculate_memsolve`); in particular `hsg_2` falls strictly
between the magnetic update and electric part A, and `hsg_1` strictly
between electric parts A and B. -/
theorem c1_solver_hsg_iteration_order (cuda : Bool) (i : Nat) :
    solveIteration true cuda i =
      [Op.store_outputs, Op.store_snapshots i, Op.update_magnetic,
       Op.update_magnetic_pml, Op.update_magnetic_sources, Op.hsg_2,
       Op.update_electric_a, Op.update_electric_pml,
       Op.update_electric_sources, Op.hsg_1, Op.update_electric_b]
      ++ (if cuda then [Op.calculate_memsolve i] else []) ∧
    posOf Op.update_magnetic (solveIteration true cuda i)
      < posOf Op.hsg_2 (solveIteration true cuda i) ∧
    posOf Op.hsg_2 (solveIteration true cuda i)
      < posOf Op.update_electric_a (solveIteration true cuda i) ∧
    posOf Op.update_electric_a (solveIteration true cuda i)
      < posOf Op.hsg_1 (solveIteration true cuda i) ∧
    posOf Op.hsg_1 (solveIteration true cuda i)
      < posOf Op.update_electric_b (solveIteration true cuda i) := by
  cases cuda <;> simp [solveIteration, posOf]

/-- C2: for every kernel behaviour, main grid, sub-grid and precursor
state, the IS injections (`update_electric_is`, `update_magnetic_is`)
leave all six main-grid field arrays unchanged, and the OS injections
(`update_electric_os`, `update_magnetic_os`) leave all six sub-grid field
arrays unchanged. -/
theorem c2_is_os_write_isolation (kIs : IsKernel) (kOs : OsKernel)
    (p : Precursors) (st : SimState) :
    ((callUpdateElectricIs kIs p st).G.Ex = st.G.Ex ∧
     (callUpdateElectricIs kIs p st).G.Ey = st.G.Ey ∧
     (callUpdateElectricIs kIs p st).G.Ez = st.G.Ez ∧
     (callUpdateElectricIs kIs p st).G.Hx = st.G.Hx ∧
     (callUpdateElectricIs kIs p st).G.Hy = st.G.Hy ∧
     (callUpdateElectricIs kIs p st).G.Hz = st.G.Hz) ∧
    ((callUpdateMagneticIs kIs p st).G.Ex = st.G.Ex ∧
     (callUpdateMagneticIs kIs p st).G.Ey = st.G.Ey ∧
     (callUpdateMagneticIs kIs p st).G.Ez = st.G.Ez ∧
     (callUpdateMagneticIs kIs p st).G.Hx = st.G.Hx ∧
     (callUpdateMagneticIs kIs p st).G.Hy = st.G.Hy ∧
     (callUpdateMagneticIs kIs p st).G.Hz = st.G.Hz) ∧
    ((callUpdateElectricOs kOs st).sub.Ex = st.sub.Ex ∧
     (callUpdateElectricOs kOs st).sub.Ey = st.sub.Ey ∧
     (callUpdateElectricOs kOs st).sub.Ez = st.sub.Ez ∧
     (callUpdateElectricOs kOs st).sub.Hx = st.sub.Hx ∧
     (callUpdateElectricOs kOs st).sub.Hy = st.sub.Hy ∧
     (callUpdateElectricOs kOs st).sub.Hz = st.sub.Hz) ∧
    ((callUpdateMagneticOs kOs st).sub.Ex = st.sub.Ex ∧
     (callUpdateMagneticOs kOs st).sub.Ey = st.sub.Ey ∧
     (callUpdateMagneticOs kOs st).sub.Ez = st.sub.Ez ∧
     (callUpdateMagneticOs kOs st).sub.Hx = st.sub.Hx ∧
     (callUpdateMagneticOs kOs st).sub.Hy = st.sub.Hy ∧
     (callUpdateMagneticOs kOs st).sub.Hz = st.sub.Hz) :=
  ⟨⟨rfl, rfl, rfl, rfl, rfl, rfl⟩, ⟨rfl, rfl, rfl, rfl, rfl, rfl⟩,
   ⟨rfl, rfl, rfl, rfl, rfl, rfl⟩, ⟨rfl, rfl, rfl, rfl, rfl, rfl⟩⟩

/-- C3: within every fine sub-step of `hsg_1` and `hsg_2` (every loop-body
iteration and the final sub-step after each loop), the field advance
precedes the IS injection for the same field, and that IS injection
precedes the source injection for the same field. -/
theorem c3_substep_phase_order (ratio m : Nat) :
    (SgOp.update_electric_a ∈ hsg1_body ratio m ∧
     SgOp.update_electric_is ∈ hsg1_body ratio m ∧
     SgOp.update_electric_sources ∈ hsg1_body ratio m ∧
     posOf SgOp.update_electric_a (hsg1_body ratio m)
       < posOf SgOp.update_electric_is (hsg1_body ratio m) ∧
     posOf SgOp.update_electric_is (hsg1_body ratio m)
       < posOf SgOp.update_electric_sources (hsg1_body ratio m)) ∧
    (SgOp.update_magnetic ∈ hsg1_body ratio m ∧
     SgOp.update_magnetic_is ∈ hsg1_body ratio m ∧
     SgOp.update_magnetic_sources ∈ hsg1_body ratio m ∧
     posOf SgOp.update_magnetic (hsg1_body ratio m)
       < posOf SgOp.update_magnetic_is (hsg1_body ratio m) ∧
     posOf SgOp.update_magnetic_is (hsg1_body ratio m)
       < posOf SgOp.update_magnetic_sources (hsg1_body ratio m)) ∧
    (SgOp.update_magnetic ∈ hsg2_body ratio m ∧
     SgOp.update_magnetic_is ∈ hsg2_body ratio m ∧
     SgOp.update_magnetic_sources ∈ hsg2_body ratio m ∧
     posOf SgOp.update_magnetic (hsg2_body ratio m)
       < posOf SgOp.update_magnetic_is (hsg2_body ratio m) ∧
     posOf SgOp.update_magnetic_is (hsg2_body ratio m)
       < posOf SgOp.update_magnetic_sources (hsg2_body ratio m)) ∧
    (SgOp.update_electric_a ∈ hsg2_body ratio m ∧
     SgOp.update_electric_is ∈ hsg2_body ratio m ∧
     SgOp.update_electric_sources ∈ hsg2_body ratio m ∧
     posOf SgOp.update_electric_a (hsg2_body ratio m)
       < posOf SgOp.update_electric_is (hsg2_body ratio m) ∧
     posOf SgOp.update_electric_is (hsg2_body ratio m)
       < posOf SgOp.update_electric_sources (hsg2_body ratio m)) ∧
    (posOf SgOp.update_electric_a hsg1_tail
       < posOf SgOp.update_electric_is hsg1_tail ∧
     posOf SgOp.update_electric_is hsg1_tail
       < posOf SgOp.update_electric_sources hsg1_tail) ∧
    (posOf SgOp.update_magnetic hsg2_tail
       < posOf SgOp.update_magnetic_is hsg2_tail ∧
     posOf SgOp.update_magnetic_is hsg2_tail
       < posOf SgOp.update_magnetic_sources hsg2_tail) := by
  simp [hsg1_body, hsg2_body, hsg1_tail, hsg2_tail, posOf]

/-- C4: for every odd `ratio ≥ 3`, the computed loop bound
`upper_m = int(ratio/2 - 0.5)` equals `(ratio - 1) / 2`, and each call to
`hsg_1` and `hsg_2` executes its sub-step loop exactly `(ratio - 1) / 2`
times (measured by the once-per-iteration IS injections in the traces). -/
theorem c4_upper_m_loop_count (ratio : Nat) (h1 : Odd ratio)
    (h2 : 3 ≤ ratio) :
    upper_m ratio = ((ratio : Int) - 1) / 2 ∧
    (upper_m ratio).toNat = (ratio - 1) / 2 ∧
    countOp SgOp.update_magnetic_is (hsg_1 ratio) = (ratio - 1) / 2 ∧
    countOp SgOp.update_electric_is (hsg_2 ratio) = (ratio - 1) / 2 := by
  obtain ⟨k, hk⟩ := h1
  subst hk
  have hq : ((2 * k + 1 : Nat) : ℚ) / 2 - 1 / 2 = (k : ℚ) := by
    push_cast; ring
  have hup : upper_m (2 * k + 1) = (k : Int) := by
    rw [upper_m, hq, pyInt, if_pos (by positivity), Int.floor_natCast]
  have htn : (upper_m (2 * k + 1)).toNat = k := by
    rw [hup, Int.toNat_natCast]
  have hbody1 : ∀ m, countOp SgOp.update_magnetic_is (hsg1_body (2 * k + 1) m) = 1 := by
    intro m; simp [hsg1_body, countOp]
  have hbody2 : ∀ m, countOp SgOp.update_electric_is (hsg2_body (2 * k + 1) m) = 1 := by
    intro m; simp [hsg2_body, countOp]
  refine ⟨by rw [hup]; omega, by rw [htn]; omega, ?_, ?_⟩
  · have hcount := countOp_loopTrace SgOp.update_magnetic_is
      (hsg1_body (2 * k + 1)) hbody1 k
    simp [hsg_1, countOp_append, countOp, hsg1_tail, htn, hcount]
  · have hcount := countOp_loopTrace SgOp.update_electric_is
      (hsg2_body (2 * k + 1)) hbody2 k
    simp [hsg_2, countOp_append, countOp, hsg2_tail, htn, hcount]

/-- C4 witness: the theorem applied at the concrete odd ratio 5, where
`upper_m = 2 = (5 - 1) / 2`. -/
theorem c4_upper_m_loop_count_witness :
    Odd 5 ∧ 3 ≤ 5 ∧
    (upper_m 5 = ((5 : Int) - 1) / 2 ∧
     (upper_m 5).toNat = (5 - 1) / 2 ∧
     countOp SgOp.update_magnetic_is (hsg_1 5) = (5 - 1) / 2 ∧
     countOp SgOp.update_electric_is (hsg_2 5) = (5 - 1) / 2) :=
  ⟨by decide, by decide, c4_upper_m_loop_count 5 (by decide) (by decide)⟩

/-- C5: in the trace of `hsg_1` the element immediately preceding the last
`update_electric_is` is `calc_exact_magnetic_in_time`, and in the trace of
`hsg_2` the element immediately preceding the last `update_magnetic_is` is
`calc_exact_electric_in_time` — the coincidence sub-step uses the exact,
not the interpolated, coarse sample (stated on the reversed traces, where
the first occurrence is the original last occurrence). -/
theorem c5_exact_sample_at_coincidence (ratio : Nat) :
    posOf SgOp.update_electric_is (hsg_1 ratio).reverse = 3 ∧
    (hsg_1 ratio).reverse.get? 4 = some SgOp.calc_exact_magnetic_in_time ∧
    posOf SgOp.update_magnetic_is (hsg_2 ratio).reverse = 2 ∧
    (hsg_2 ratio).reverse.get? 3 = some SgOp.calc_exact_electric_in_time := by
  refine ⟨?_, ?_, ?_, ?_⟩ <;>
    simp [hsg_1, hsg_2, hsg1_tail, hsg2_tail, List.reverse_append, posOf]

/-- C6 counterexample: on a grid whose subgrids list holds an unrecognized
sub-grid object, `create_updates` raises `ValueError`, not the
`ConfigurationError` the claim states. -/
theorem c6_counterexample :
    create_updates [SgObj.otherGrid 0] = .error .ValueError ∧
    create_updates [SgObj.otherGrid 0] ≠ .error .ConfigurationError :=
  ⟨rfl, by simp [create_updates]⟩

/-- C6 (amended): for every subgrids list containing a sub-grid that is not
a `SubGridHSG`, `create_updates` fails at setup time with a `ValueError`. -/
theorem c6_unrecognized_subgrid_value_error (sgs : List SgObj)
    (h : ∃ sg ∈ sgs, sg.isHSG = false) :
    create_updates sgs = .error .ValueError := by
  induction sgs with
  | nil => simp at h
  | cons hd tl ih =>
      cases hd with
      | subGridHSG f =>
          have htl : ∃ sg ∈ tl, sg.isHSG = false := by
            rcases h with ⟨sg, hmem, hsg⟩
            rcases List.mem_cons.mp hmem with hEq | hmem2
            · subst hEq; simp [SgObj.isHSG] at hsg
            · exact ⟨sg, hmem2, hsg⟩
          cases f <;> simp [create_updates, ih htl, Except.map]
      | otherGrid t => rfl

/-- C6 witness: the amended theorem applied to a concrete subgrids list
with a recognized sub-grid followed by an unrecognized one. -/
theorem c6_unrecognized_subgrid_value_error_witness :
    (∃ sg ∈ [SgObj.subGridHSG true, SgObj.otherGrid 7], sg.isHSG = false) ∧
    create_updates [SgObj.subGridHSG true, SgObj.otherGrid 7]
      = .error .ValueError :=
  ⟨by decide,
   c6_unrecognized_subgrid_value_error
     [SgObj.subGridHSG true, SgObj.otherGrid 7] (by decide)⟩

/-- C7 counterexample: with neither the `cpu` nor the `cuda` flag set,
`create_G` and `create_solver` fail with `UnboundLocalError` (the local
`G` / `solver` is never assigned), not with the `ConfigurationError` the
claim states. -/
theorem c7_counterexample :
    create_G ⟨false, false, false⟩ = .error .UnboundLocalError ∧
    create_G ⟨false, false, false⟩ ≠ .error .ConfigurationError ∧
    create_solver ⟨false, false, false⟩ [] = .error .UnboundLocalError ∧
    create_solver ⟨false, false, false⟩ [] ≠ .error .ConfigurationError :=
  ⟨rfl, by simp [create_G], rfl, by simp [create_solver]⟩

/-- C7 (amended): if the configuration selects neither a CPU nor a CUDA
execution path, `create_G` fails with `UnboundLocalError`, and so does
`create_solver` whenever the sub-grid path is not selected either. -/
theorem c7_no_backend_unbound_local (cfg : SimGeneral) (sgs : List SgObj)
    (hcpu : cfg.cpu = false) (hcuda : cfg.cuda = false) :
    create_G cfg = .error .UnboundLocalError ∧
    (cfg.subgrid = false →
      create_solver cfg sgs = .error .UnboundLocalError) := by
  constructor
  · simp [create_G, hcpu, hcuda]
  · intro hsub
    simp [create_solver, hcpu, hcuda, hsub]

/-- C7 witness: the amended theorem applied at the all-false
configuration. -/
theorem c7_no_backend_unbound_local_witness :
    (SimGeneral.mk false false false).cpu = false ∧
    (SimGeneral.mk false false false).cuda = false ∧
    (create_G ⟨false, false, false⟩ = .error .UnboundLocalError ∧
     ((SimGeneral.mk false false false).subgrid = false →
       create_solver ⟨false, false, false⟩ [] = .error .UnboundLocalError)) :=
  ⟨rfl, rfl, c7_no_backend_unbound_local ⟨false, false, false⟩ [] rfl rfl⟩

/-- C8: for the unfiltered precursor variant, a coarse field moving
linearly from `a` to `b` over one coarse step interpolates at sub-step
`m ∈ [1, upper_m]` to exactly `a + (b - a) * m / ratio`, for both the
electric and the magnetic interpolation. -/
theorem c8_linear_interpolation_value (ratio m : Nat) (a b : ℚ)
    (h1 : Odd ratio) (h2 : 3 ≤ ratio) (h3 : 1 ≤ m)
    (h4 : (m : Int) ≤ upper_m ratio) :
    interpolate_electric_in_time ratio m ⟨[a], [b]⟩
      = [a + (b - a) * m / ratio] ∧
    interpolate_magnetic_in_time ratio m ⟨[a], [b]⟩
      = [a + (b - a) * m / ratio] := by
  constructor <;>
  · simp [interpolate_electric_in_time, interpolate_magnetic_in_time,
      linearInterpInTime]
    ring

/-- C8 witness: the theorem applied at ratio 5, sub-step 2, samples 3 and
7, where the interpolated value is `3 + (7 - 3) * 2 / 5`. -/
theorem c8_linear_interpolation_value_witness :
    Odd 5 ∧ 3 ≤ 5 ∧ 1 ≤ 2 ∧ (2 : Int) ≤ upper_m 5 ∧
    (interpolate_electric_in_time 5 2 ⟨[(3 : ℚ)], [7]⟩
       = [3 + ((7 : ℚ) - 3) * 2 / 5] ∧
     interpolate_magnetic_in_time 5 2 ⟨[(3 : ℚ)], [7]⟩
       = [3 + ((7 : ℚ) - 3) * 2 / 5]) :=
  ⟨by decide, by decide, by decide, by norm_num [upper_m, pyInt],
   c8_linear_interpolation_value 5 2 3 7 (by decide) (by decide) (by decide)
     (by norm_num [upper_m, pyInt])⟩

/-- C9: the six IS electric-injection calls of the CPU and CUDA backends
agree on the first five descriptors, but at the sixth (front/back faces,
`hx_front`/`hx_back` precursors, `Ez` material lookup) the CPU backend
writes the `Ez` array while the CUDA backend passes the `Ex` array as the
kernel destination — the descriptor lists differ. -/
theorem c9_cuda_electric_is_destination_bug :
    cpu_update_electric_is_calls.take 5
      = cuda_update_electric_is_calls.take 5 ∧
    cpu_update_electric_is_calls.get? 5
      = some ⟨.Ez, .hx_front_back, .Ez, 1, -1, 2⟩ ∧
    cuda_update_electric_is_calls.get? 5
      = some ⟨.Ex, .hx_front_back, .Ez, 1, -1, 2⟩ ∧
    cpu_update_electric_is_calls ≠ cuda_update_electric_is_calls := by
  decide

/-- C10: `Solver.solve` on an empty iterator never assigns the local
`memsolve` and fails with `UnboundLocalError` at the return statement,
while on any non-empty iterator it returns a value — a non-empty iterator
is a precondition for `solve` to return. -/
theorem c10_solve_requires_nonempty_iterator (hsg cuda : Bool)
    (memf : Nat → Nat) (it : List Nat) (h : it ≠ []) :
    Solver.solve hsg cuda memf [] = .error .UnboundLocalError ∧
    ∃ tr m, Solver.solve hsg cuda memf it = .ok (tr, m) := by
  constructor
  · rfl
  · cases it with
    | nil => exact absurd rfl h
    | cons i rest =>
        obtain ⟨m, hm⟩ :=
          memAfter_some cuda memf rest (if cuda then some (memf i) else none)
        refine ⟨((i :: rest).map (solveIteration hsg cuda)).foldr (· ++ ·) [],
          m, ?_⟩
        simp only [Solver.solve, memAfter, hm]

/-- C10 witness: the theorem applied to the one-element iterator `[0]`. -/
theorem c10_solve_requires_nonempty_iterator_witness :
    ([0] : List Nat) ≠ [] ∧
    (Solver.solve true false (fun i => i) [] = .error .UnboundLocalError ∧
     ∃ tr m, Solver.solve true false (fun i => i) [0] = .ok (tr, m)) :=
  ⟨by decide,
   c10_solve_requires_nonempty_iterator true false (fun i => i) [0]
     (by decide)⟩

end GprMax
